import Mathlib

/-!
Formal model of `src/generate_matrices.py`.

The script is a single linear pass: it fixes a configuration
(`MATRIX_SIZES`, `OUTPUT_DIR`, `SEED`), creates the output directory with
`os.makedirs(OUTPUT_DIR, exist_ok=True)`, seeds one shared numpy generator
`rng = np.random.default_rng(SEED)`, and then, for every size in
`MATRIX_SIZES` (outer loop) and every label in `['A', 'B']` (inner loop),
draws a `size x size` block of integers in `[0, 10)` with
`rng.integers(low=0, high=10, size=(size, size), dtype=np.int32)`,
writes the block to `<OUTPUT_DIR>/<label>_<size>.bin` with `matrix.tofile`,
and prints `Saved <filepath>`.

The embedding below models the process state as a `World`: a directory set,
a filesystem (path to byte contents), a ghost log of the writes performed in
order, the console lines, and the number of random draws consumed so far.
The pure functions `runLabels` / `runSizes` / `runScript` are the direct
translation of the script (which contains no error handling of its own);
the `...E` variants extend them with the filesystem-fault semantics of the
spec's error-handling section, where directory creation or a file write may
fail and the failure aborts the run at once.
-/

/-- Configuration constant `MATRIX_SIZES = [64, 128, 256, 512, 1024]`. -/
def MATRIX_SIZES : List Nat := [64, 128, 256, 512, 1024]

/-- Configuration constant `OUTPUT_DIR = 'matrices'`. -/
def OUTPUT_DIR : String := "matrices"

/-- Configuration constant `SEED = 42`. -/
def SEED : Nat := 42

/-- The fixed inner-loop label list `['A', 'B']`. -/
def LABELS : List String := ["A", "B"]

/-- Modelled from the spec: the numpy generator `np.random.default_rng(SEED)`
(PCG64) is library code, not part of this repository. Per the spec it is a
seeded pseudo-random stream whose internal state is a pure function of the
seed and the number of prior draws, each draw uniformly distributed over the
integer range `[0, 10)`. We model the stream by a fixed 64-bit avalanche
mixing function applied to (mixed seed + draw index), reduced mod 10; the
exact numeric values differ from numpy's, but the stream shape (pure in
(seed, index), values in `[0, 10)`) is the spec's. -/
def rngMix (x : Nat) : Nat :=
  let z := (x + 11400714819323198485) % 2 ^ 64
  let z := ((z ^^^ (z >>> 30)) * 13787848793156543929) % 2 ^ 64
  let z := ((z ^^^ (z >>> 27)) * 10723151780598845931) % 2 ^ 64
  z ^^^ (z >>> 31)

/-- The value of the `i`-th draw (0-based, counted across the whole run) of
the shared generator seeded with `seed`; always in `[0, 10)`. -/
def rngDraw (seed i : Nat) : Nat :=
  rngMix ((rngMix seed + i) % 2 ^ 64) % 10

/-- The flat row-major contents of a matrix of `n` elements drawn from the
shared stream when `d` draws have already been consumed: numpy fills
`size=(size, size)` in row-major order, one stream draw per element. -/
def matrixDraws (seed d n : Nat) : List Nat :=
  (List.range n).map (fun j => rngDraw seed (d + j))

/-- The four little-endian bytes of a 32-bit integer value (the script's
`dtype=np.int32` together with `tofile` on a little-endian platform; all
generated values lie in `[0, 9]`, so the sign bit is never set). -/
def int32LEBytes (v : Nat) : List Nat :=
  [v % 256, v / 256 % 256, v / 65536 % 256, v / 16777216 % 256]

/-- `matrix.tofile`: raw element bytes in row-major order, 4 bytes per
element, no header, footer or delimiters. -/
def serialize (vals : List Nat) : List Nat :=
  vals.flatMap int32LEBytes

/-- Decode a raw byte string back into 32-bit little-endian integers
(4 bytes per value). -/
def decodeInt32LE : List Nat → List Nat
  | b0 :: b1 :: b2 :: b3 :: rest =>
      (b0 + 256 * b1 + 65536 * b2 + 16777216 * b3) :: decodeInt32LE rest
  | _ => []

/-- `os.path.join(OUTPUT_DIR, f'{matrix_label}_{size}.bin')`. -/
def filepath (label : String) (size : Nat) : String :=
  OUTPUT_DIR ++ "/" ++ label ++ "_" ++ toString size ++ ".bin"

/-- The process state: existing directories, the filesystem (byte contents
per path), a ghost log of the writes performed in order, the console lines
printed, and the number of generator draws consumed so far. -/
structure World where
  dirs : String → Bool
  fs : String → Option (List Nat)
  log : List (String × List Nat)
  console : List String
  draws : Nat

/-- The state of a freshly started process over a pre-existing filesystem:
no writes performed, nothing printed, generator freshly seeded. -/
def freshWorld (fsys : String → Option (List Nat)) (dirs : String → Bool) : World :=
  { dirs := dirs, fs := fsys, log := [], console := [], draws := 0 }

/-- Writing a file: the path is bound to the new contents, silently
replacing any previous contents; every other path is untouched. -/
def writeFileF (fs : String → Option (List Nat)) (p : String) (c : List Nat) :
    String → Option (List Nat) :=
  fun q => if q = p then some c else fs q

/-- `os.makedirs(OUTPUT_DIR, exist_ok=True)`: ensure the output directory
exists (a no-op on the directory set when it already does). -/
def makedirsF (w : World) : World :=
  { w with dirs := fun d => if d = OUTPUT_DIR then true else w.dirs d }

/-- One inner-loop iteration of the script: draw a `size*size` matrix from
the shared stream, write it to `filepath label size`, print
`Saved <filepath>`. -/
def writeMatrix (seed size : Nat) (label : String) (w : World) : World :=
  let vals := matrixDraws seed w.draws (size * size)
  let bytes := serialize vals
  let fp := filepath label size
  { w with
    fs := writeFileF w.fs fp bytes,
    log := w.log ++ [(fp, bytes)],
    console := w.console ++ ["Saved " ++ fp],
    draws := w.draws + size * size }

/-- The inner `for matrix_label in ['A', 'B']` loop. -/
def runLabels (seed size : Nat) : List String → World → World
  | [], w => w
  | l :: ls, w => runLabels seed size ls (writeMatrix seed size l w)

/-- The outer `for size in MATRIX_SIZES` loop. -/
def runSizes (seed : Nat) : List Nat → List String → World → World
  | [], _, w => w
  | s :: ss, labels, w => runSizes seed ss labels (runLabels seed s labels w)

/-- The whole script (fault-free): `os.makedirs`, then the nested loops. -/
def runScript (seed : Nat) (sizes : List Nat) (labels : List String) (w : World) : World :=
  runSizes seed sizes labels (makedirsF w)

/-- The script at its compiled-in configuration, started on a pre-existing
filesystem. -/
def script (fsys : String → Option (List Nat)) (dirs : String → Bool) : World :=
  runScript SEED MATRIX_SIZES LABELS (freshWorld fsys dirs)

/-- Modelled from the spec: the filesystem-fault environment of the spec's
error-handling section (permission denied, disk full, ...). `mkdirOk` says
whether creating a missing output directory succeeds; `writeOk p` says
whether writing path `p` succeeds. The script itself contains no handlers,
so in the `...E` run functions below a failure propagates immediately. -/
structure Env where
  mkdirOk : Bool
  writeOk : String → Bool

/-- A filesystem error: directory creation failed, or a file write failed.
An `Except.error` outcome models the Python exception escaping `main` and
the process exiting with a non-zero status; the carried `World` is the
process state at the moment of the abort. -/
inductive FsError where
  | mkdirFailed (dir : String)
  | writeFailed (path : String)

/-- `os.makedirs(OUTPUT_DIR, exist_ok=True)` under the fault model: if the
directory already exists there is nothing to create and the call succeeds;
if it is missing it is created exactly when the environment allows it. -/
def makedirsE (env : Env) (w : World) : Except (FsError × World) World :=
  if w.dirs OUTPUT_DIR || env.mkdirOk then .ok (makedirsF w)
  else .error (.mkdirFailed OUTPUT_DIR, w)

/-- One inner-loop iteration under the fault model: the matrix is drawn
(advancing the generator), then `tofile` either succeeds or raises; on
failure nothing is written and no `Saved` line is printed. -/
def writeMatrixE (env : Env) (seed size : Nat) (label : String) (w : World) :
    Except (FsError × World) World :=
  if env.writeOk (filepath label size) then .ok (writeMatrix seed size label w)
  else .error (.writeFailed (filepath label size),
               { w with draws := w.draws + size * size })

/-- The inner label loop under the fault model: the first failure aborts. -/
def runLabelsE (env : Env) (seed size : Nat) :
    List String → World → Except (FsError × World) World
  | [], w => .ok w
  | l :: ls, w =>
    match writeMatrixE env seed size l w with
    | .ok w' => runLabelsE env seed size ls w'
    | .error e => .error e

/-- The outer size loop under the fault model: the first failure aborts. -/
def runSizesE (env : Env) (seed : Nat) :
    List Nat → List String → World → Except (FsError × World) World
  | [], _, w => .ok w
  | s :: ss, labels, w =>
    match runLabelsE env seed s labels w with
    | .ok w' => runSizesE env seed ss labels w'
    | .error e => .error e

/-- The whole script under the fault model. -/
def runScriptE (env : Env) (seed : Nat) (sizes : List Nat) (labels : List String)
    (w : World) : Except (FsError × World) World :=
  match makedirsE env w with
  | .ok w' => runSizesE env seed sizes labels w'
  | .error e => .error e

/-- The flattened iteration space of the two nested loops: all
`(size, label)` pairs, sizes outer, labels inner. -/
def items (sizes : List Nat) (labels : List String) : List (Nat × String) :=
  sizes.flatMap (fun s => labels.map (fun l => (s, l)))

/-- The planned sequence of writes `(path, bytes)` for a run over the given
iteration items, starting with `d` draws already consumed. -/
def planItems (seed d : Nat) : List (Nat × String) → List (String × List Nat)
  | [] => []
  | (s, l) :: rest =>
      (filepath l s, serialize (matrixDraws seed d (s * s))) ::
        planItems seed (d + s * s) rest

/-- Total number of generator draws consumed by the given iteration items. -/
def drawCount : List (Nat × String) → Nat
  | [] => 0
  | (s, _) :: rest => s * s + drawCount rest

/-- The last contents written to `q` by a write sequence, if any. -/
def lastWrite : List (String × List Nat) → String → Option (List Nat)
  | [], _ => none
  | (p, c) :: ws, q =>
    match lastWrite ws q with
    | some c' => some c'
    | none => if q = p then some c else none

/-- Apply a sequence of writes to a filesystem, in order. -/
def applyWrites (fs : String → Option (List Nat)) :
    List (String × List Nat) → (String → Option (List Nat))
  | [] => fs
  | (p, c) :: ws => applyWrites (writeFileF fs p c) ws

/-- The nested loops, flattened over the iteration items (proof device;
`runItems_eq` below identifies it with `runSizes`). -/
def runItems (seed : Nat) : List (Nat × String) → World → World
  | [], w => w
  | (s, l) :: rest, w => runItems seed rest (writeMatrix seed s l w)

/-- The fault-model loops, flattened over the iteration items. -/
def runItemsE (env : Env) (seed : Nat) :
    List (Nat × String) → World → Except (FsError × World) World
  | [], w => .ok w
  | (s, l) :: rest, w =>
    match writeMatrixE env seed s l w with
    | .ok w' => runItemsE env seed rest w'
    | .error e => .error e

/-! ### Basic facts about the draw stream and serialization -/

theorem rngDraw_lt (seed i : Nat) : rngDraw seed i < 10 :=
  Nat.mod_lt _ (by decide)

theorem matrixDraws_length (seed d n : Nat) : (matrixDraws seed d n).length = n := by
  simp [matrixDraws]

theorem mem_matrixDraws_lt {seed d n v : Nat} (h : v ∈ matrixDraws seed d n) :
    v < 10 := by
  simp only [matrixDraws, List.mem_map] at h
  obtain ⟨j, -, rfl⟩ := h
  exact rngDraw_lt seed (d + j)

theorem matrixDraws_getElem? {j n : Nat} (seed d : Nat) (h : j < n) :
    (matrixDraws seed d n)[j]? = some (rngDraw seed (d + j)) := by
  simp [matrixDraws, List.getElem?_map, List.getElem?_range, h]

theorem serialize_length (vals : List Nat) : (serialize vals).length = 4 * vals.length := by
  induction vals with
  | nil => rfl
  | cons v rest ih =>
    simp [serialize, int32LEBytes] at ih ⊢
    omega

theorem decodeInt32LE_serialize (vals : List Nat) (h : ∀ v ∈ vals, v < 2 ^ 32) :
    decodeInt32LE (serialize vals) = vals := by
  induction vals with
  | nil => rfl
  | cons v rest ih =>
    have hv : v < 2 ^ 32 := h v (List.mem_cons_self v rest)
    simp only [serialize, List.flatMap_cons, int32LEBytes, List.cons_append,
      List.nil_append]
    rw [decodeInt32LE]
    refine congrArg₂ List.cons ?_ (ih fun u hu => h u (List.mem_cons_of_mem v hu))
    omega

/-! ### Flattening the nested loops -/

theorem runLabels_eq_runItems (seed size : Nat) (ls : List String) (w : World) :
    runLabels seed size ls w = runItems seed (ls.map (fun l => (size, l))) w := by
  induction ls generalizing w with
  | nil => rfl
  | cons l ls ih => simp [runLabels, runItems, ih]

theorem runItems_append (seed : Nat) (xs ys : List (Nat × String)) (w : World) :
    runItems seed (xs ++ ys) w = runItems seed ys (runItems seed xs w) := by
  induction xs generalizing w with
  | nil => rfl
  | cons x xs ih => cases x with | mk s l => simp [runItems, ih]

theorem runSizes_eq_runItems (seed : Nat) (sizes : List Nat) (labels : List String)
    (w : World) : runSizes seed sizes labels w = runItems seed (items sizes labels) w := by
  induction sizes generalizing w with
  | nil => rfl
  | cons s ss ih =>
    simp [runSizes, items, List.flatMap_cons, runItems_append,
      runLabels_eq_runItems, ih]

theorem planItems_length (seed d : Nat) (its : List (Nat × String)) :
    (planItems seed d its).length = its.length := by
  induction its generalizing d with
  | nil => rfl
  | cons it rest ih => cases it with | mk s l => simp [planItems, ih]

theorem planItems_map_fst (seed d : Nat) (its : List (Nat × String)) :
    (planItems seed d its).map Prod.fst = its.map (fun sl => filepath sl.2 sl.1) := by
  induction its generalizing d with
  | nil => rfl
  | cons it rest ih => cases it with | mk s l => simp [planItems, ih]

theorem planItems_append (seed d : Nat) (xs ys : List (Nat × String)) :
    planItems seed d (xs ++ ys) =
      planItems seed d xs ++ planItems seed (d + drawCount xs) ys := by
  induction xs generalizing d with
  | nil => simp [planItems, drawCount]
  | cons x xs ih =>
    cases x with | mk s l =>
    simp [planItems, drawCount, ih, Nat.add_assoc]

/-! ### The master characterization of a run -/

theorem runItems_spec (seed : Nat) (its : List (Nat × String)) (w : World) :
    runItems seed its w =
      { dirs := w.dirs,
        fs := applyWrites w.fs (planItems seed w.draws its),
        log := w.log ++ planItems seed w.draws its,
        console := w.console ++
          (planItems seed w.draws its).map (fun pc => "Saved " ++ pc.1),
        draws := w.draws + drawCount its } := by
  induction its generalizing w with
  | nil => simp [runItems, planItems, applyWrites, drawCount]
  | cons it rest ih =>
    cases it with | mk s l =>
    rw [runItems, ih]
    simp [writeMatrix, planItems, drawCount, applyWrites, List.append_assoc,
      Nat.add_assoc]

/-! ### Filesystem write sequences -/

theorem applyWrites_lastWrite (fs : String → Option (List Nat))
    (ws : List (String × List Nat)) (q : String) :
    applyWrites fs ws q =
      match lastWrite ws q with
      | some c => some c
      | none => fs q := by
  induction ws generalizing fs with
  | nil => rfl
  | cons pc ws ih =>
    cases pc with | mk p c =>
    rw [applyWrites, ih, lastWrite]
    cases h : lastWrite ws q with
    | some c' => rfl
    | none =>
      simp only [writeFileF]
      split <;> rfl

theorem applyWrites_idem (fs : String → Option (List Nat))
    (ws : List (String × List Nat)) :
    applyWrites (applyWrites fs ws) ws = applyWrites fs ws := by
  funext q
  rw [applyWrites_lastWrite, applyWrites_lastWrite]
  cases h : lastWrite ws q with
  | some c => rfl
  | none => rfl

theorem lastWrite_isSome_of_mem {ws : List (String × List Nat)} {p : String}
    (h : p ∈ ws.map Prod.fst) : (lastWrite ws p).isSome := by
  induction ws with
  | nil => simp at h
  | cons pc ws ih =>
    cases pc with | mk p' c =>
    rw [lastWrite]
    cases hl : lastWrite ws p with
    | some c' => rfl
    | none =>
      simp only [List.map_cons, List.mem_cons] at h
      rcases h with h | h
      · simp [h]
      · have := ih h
        rw [hl] at this
        simp at this

theorem applyWrites_indep_of_mem {ws : List (String × List Nat)} {p : String}
    (fs₁ fs₂ : String → Option (List Nat)) (h : p ∈ ws.map Prod.fst) :
    applyWrites fs₁ ws p = applyWrites fs₂ ws p := by
  rw [applyWrites_lastWrite, applyWrites_lastWrite]
  cases hl : lastWrite ws p with
  | some c => rfl
  | none =>
    have := lastWrite_isSome_of_mem h
    rw [hl] at this
    simp at this

/-! ### Indexing and membership in the planned writes -/

theorem planItems_getElem? (seed d : Nat) (its : List (Nat × String)) (k : Nat) :
    (planItems seed d its)[k]? =
      (its[k]?).map (fun sl =>
        (filepath sl.2 sl.1,
          serialize (matrixDraws seed (d + drawCount (its.take k)) (sl.1 * sl.1)))) := by
  induction its generalizing d k with
  | nil => simp [planItems]
  | cons it rest ih =>
    cases it with | mk s l =>
    cases k with
    | zero => simp [planItems, drawCount]
    | succ k => simp [planItems, ih, drawCount, Nat.add_assoc]

theorem mem_planItems {seed d : Nat} {its : List (Nat × String)}
    {pc : String × List Nat} (h : pc ∈ planItems seed d its) :
    ∃ sl ∈ its, ∃ off,
      pc = (filepath sl.2 sl.1, serialize (matrixDraws seed off (sl.1 * sl.1))) := by
  induction its generalizing d with
  | nil => simp [planItems] at h
  | cons it rest ih =>
    cases it with | mk s l =>
    rw [planItems, List.mem_cons] at h
    rcases h with h | h
    · exact ⟨(s, l), List.mem_cons_self _ _, d, h⟩
    · obtain ⟨sl, hsl, off, hoff⟩ := ih h
      exact ⟨sl, List.mem_cons_of_mem _ hsl, off, hoff⟩

theorem mem_items {sizes : List Nat} {labels : List String} {s : Nat} {l : String}
    (h : (s, l) ∈ items sizes labels) : s ∈ sizes ∧ l ∈ labels := by
  simp only [items, List.mem_flatMap, List.mem_map] at h
  obtain ⟨s', hs', l', hl', heq⟩ := h
  obtain ⟨rfl, rfl⟩ := Prod.mk.injEq .. ▸ heq
  exact ⟨hs', hl'⟩

/-! ### Flattening the fault-model loops -/

theorem runLabelsE_eq_runItemsE (env : Env) (seed size : Nat) (ls : List String)
    (w : World) :
    runLabelsE env seed size ls w = runItemsE env seed (ls.map (fun l => (size, l))) w := by
  induction ls generalizing w with
  | nil => rfl
  | cons l ls ih =>
    rw [runLabelsE, List.map_cons, runItemsE]
    cases writeMatrixE env seed size l w with
    | ok w' => exact ih w'
    | error e => rfl

theorem runItemsE_append (env : Env) (seed : Nat) (xs ys : List (Nat × String))
    (w : World) :
    runItemsE env seed (xs ++ ys) w =
      match runItemsE env seed xs w with
      | .ok w' => runItemsE env seed ys w'
      | .error e => .error e := by
  induction xs generalizing w with
  | nil => rfl
  | cons x xs ih =>
    cases x with | mk s l =>
    rw [List.cons_append, runItemsE, runItemsE]
    cases writeMatrixE env seed s l w with
    | ok w' => exact ih w'
    | error e => rfl

theorem runSizesE_eq_runItemsE (env : Env) (seed : Nat) (sizes : List Nat)
    (labels : List String) (w : World) :
    runSizesE env seed sizes labels w = runItemsE env seed (items sizes labels) w := by
  induction sizes generalizing w with
  | nil => rfl
  | cons s ss ih =>
    rw [runSizesE, items, List.flatMap_cons, runItemsE_append,
      ← runLabelsE_eq_runItemsE]
    cases runLabelsE env seed s labels w with
    | ok w' => exact ih w'
    | error e => rfl

/-! ### Fault-free and failing runs of the flattened loop -/

theorem runItemsE_ok (env : Env) (seed : Nat) (its : List (Nat × String)) (w : World)
    (h : ((planItems seed w.draws its).map Prod.fst).all env.writeOk = true) :
    runItemsE env seed its w = .ok (runItems seed its w) := by
  induction its generalizing w with
  | nil => rfl
  | cons it rest ih =>
    cases it with | mk s l =>
    rw [planItems, List.map_cons, List.all_cons, Bool.and_eq_true] at h
    rw [runItemsE, runItems, writeMatrixE]
    simp only [h.1, if_true]
    exact ih (writeMatrix seed s l w) h.2

theorem runItemsE_failAt (env : Env) (seed : Nat) (its : List (Nat × String))
    (k : Nat) (w : World) (hk : k < its.length)
    (hpre : (((planItems seed w.draws its).take k).map Prod.fst).all env.writeOk = true)
    (hfail : env.writeOk (((planItems seed w.draws its).getD k ("", [])).1) = false) :
    runItemsE env seed its w =
      .error (.writeFailed (((planItems seed w.draws its).getD k ("", [])).1),
        { dirs := w.dirs,
          fs := applyWrites w.fs ((planItems seed w.draws its).take k),
          log := w.log ++ (planItems seed w.draws its).take k,
          console := w.console ++
            (((planItems seed w.draws its).take k).map (fun pc => "Saved " ++ pc.1)),
          draws := w.draws + drawCount (its.take (k + 1)) }) := by
  induction its generalizing k w with
  | nil => simp at hk
  | cons it rest ih =>
    cases it with | mk s l =>
    cases k with
    | zero =>
      rw [planItems, List.getD_cons_zero] at hfail
      have hfp : env.writeOk (filepath l s) = false := hfail
      rw [runItemsE, writeMatrixE, hfp]
      simp [planItems, applyWrites, drawCount, List.getD_cons_zero]
    | succ k =>
      rw [planItems, List.take_succ_cons, List.map_cons, List.all_cons,
        Bool.and_eq_true] at hpre
      rw [planItems, List.getD_cons_succ] at hfail
      simp only [List.length_cons, Nat.succ_lt_succ_iff] at hk
      have hdraws : (writeMatrix seed s l w).draws = w.draws + s * s := rfl
      have hrec := ih k (writeMatrix seed s l w) hk
        (by rw [hdraws]; exact hpre.2)
        (by rw [hdraws]; exact hfail)
      rw [runItemsE, writeMatrixE, hpre.1, if_pos rfl]
      show runItemsE env seed rest (writeMatrix seed s l w) = _
      rw [hrec]
      simp only [writeMatrix, planItems, List.getD_cons_succ, List.take_succ_cons,
        applyWrites, List.map_cons, List.append_assoc, List.cons_append,
        List.singleton_append, drawCount, Nat.add_assoc, List.nil_append]

/-! ### Further helper lemmas -/

theorem lastWrite_eq_none_of_not_mem {ws : List (String × List Nat)} {p : String}
    (h : p ∉ ws.map Prod.fst) : lastWrite ws p = none := by
  induction ws with
  | nil => rfl
  | cons pc ws ih =>
    cases pc with | mk p' c =>
    simp only [List.map_cons, List.mem_cons, not_or] at h
    rw [lastWrite, ih h.2]
    simp [h.1]

theorem runScript_spec (seed : Nat) (sizes : List Nat) (labels : List String)
    (fsys : String → Option (List Nat)) (dirs : String → Bool) :
    runScript seed sizes labels (freshWorld fsys dirs) =
      { dirs := fun d => if d = OUTPUT_DIR then true else dirs d,
        fs := applyWrites fsys (planItems seed 0 (items sizes labels)),
        log := planItems seed 0 (items sizes labels),
        console := (planItems seed 0 (items sizes labels)).map (fun pc => "Saved " ++ pc.1),
        draws := drawCount (items sizes labels) } := by
  rw [runScript, runSizes_eq_runItems, runItems_spec]
  simp [makedirsF, freshWorld]

theorem items_map_fst_congr {sizes : List Nat} {labels₁ labels₂ : List String}
    (h : labels₁.length = labels₂.length) :
    (items sizes labels₁).map Prod.fst = (items sizes labels₂).map Prod.fst := by
  induction sizes with
  | nil => rfl
  | cons s ss ih =>
    simp only [items, List.flatMap_cons, List.map_append, List.map_map] at ih ⊢
    rw [ih]
    congr 1
    show labels₁.map (fun _ => s) = labels₂.map (fun _ => s)
    rw [List.map_const', List.map_const', h]

theorem planItems_map_snd_congr {seed d : Nat} {its₁ its₂ : List (Nat × String)}
    (h : its₁.map Prod.fst = its₂.map Prod.fst) :
    (planItems seed d its₁).map Prod.snd = (planItems seed d its₂).map Prod.snd := by
  induction its₁ generalizing its₂ d with
  | nil =>
    have : its₂ = [] := by
      cases its₂ with
      | nil => rfl
      | cons x xs => simp at h
    subst this; rfl
  | cons it rest ih =>
    cases its₂ with
    | nil => simp at h
    | cons it₂ rest₂ =>
      cases it with | mk s l =>
      cases it₂ with | mk s₂ l₂ =>
      simp only [List.map_cons, List.cons.injEq] at h
      obtain ⟨rfl, hrest⟩ := h
      simp only [planItems, List.map_cons, List.cons.injEq]
      exact ⟨trivial, ih hrest⟩

theorem serialize_matrixDraws_ne {seed₁ seed₂ d₁ d₂ n j : Nat} (hj : j < n)
    (hne : rngDraw seed₁ (d₁ + j) ≠ rngDraw seed₂ (d₂ + j)) :
    serialize (matrixDraws seed₁ d₁ n) ≠ serialize (matrixDraws seed₂ d₂ n) := by
  intro heq
  have hlt : ∀ (seed d : Nat), ∀ u ∈ matrixDraws seed d n, u < 2 ^ 32 :=
    fun seed d u hu => lt_trans (mem_matrixDraws_lt hu) (by norm_num)
  have h := congrArg decodeInt32LE heq
  rw [decodeInt32LE_serialize _ (hlt seed₁ d₁), decodeInt32LE_serialize _ (hlt seed₂ d₂)] at h
  have h0 := congrArg (fun l => l[j]?) h
  simp only [matrixDraws_getElem? _ _ hj, Option.some.injEq] at h0
  exact hne h0

/-! ### The claims -/

/-- C1: For a fixed seed and a fixed ordered list of sizes, two independent
complete runs — here started on arbitrary, possibly different pre-existing
filesystems and directory sets — perform the identical sequence of
`(path, bytes)` writes, and leave byte-identical contents at every written
path: the generated output is a function of `(seed, sizes)` alone. -/
theorem C1_deterministic (seed : Nat) (sizes : List Nat) (labels : List String)
    (fsys₁ fsys₂ : String → Option (List Nat)) (dirs₁ dirs₂ : String → Bool) :
    (runScript seed sizes labels (freshWorld fsys₁ dirs₁)).log =
      (runScript seed sizes labels (freshWorld fsys₂ dirs₂)).log ∧
    ∀ p, p ∈ ((runScript seed sizes labels (freshWorld fsys₁ dirs₁)).log.map Prod.fst) →
      (runScript seed sizes labels (freshWorld fsys₁ dirs₁)).fs p =
        (runScript seed sizes labels (freshWorld fsys₂ dirs₂)).fs p := by
  rw [runScript_spec, runScript_spec]
  exact ⟨rfl, fun p hp => applyWrites_indep_of_mem fsys₁ fsys₂ hp⟩

/-- Witness for C1 at a concrete instance: seed 42, sizes `[2]`, one run on
an empty filesystem and one on a filesystem with junk everywhere agree on
the written file `matrices/A_2.bin`. -/
theorem C1_deterministic_witness :
    ("matrices/A_2.bin" ∈
      ((runScript 42 [2] ["A", "B"] (freshWorld (fun _ => none) (fun _ => false))).log.map
        Prod.fst)) ∧
    (runScript 42 [2] ["A", "B"] (freshWorld (fun _ => none) (fun _ => false))).fs
        "matrices/A_2.bin" =
      (runScript 42 [2] ["A", "B"] (freshWorld (fun _ => some [1, 2, 3]) (fun _ => true))).fs
        "matrices/A_2.bin" :=
  ⟨by decide,
    (C1_deterministic 42 [2] ["A", "B"] (fun _ => none) (fun _ => some [1, 2, 3])
          (fun _ => false) (fun _ => true)).2
      "matrices/A_2.bin" (by decide)⟩

/-- C2: every integer decoded from the byte contents of any written file
lies in `[0, 9]` (each draw of the modelled stream is an integer in
`[0, 10)`). -/
theorem C2_range (seed : Nat) (sizes : List Nat) (labels : List String)
    (fsys : String → Option (List Nat)) (dirs : String → Bool)
    (pc : String × List Nat)
    (hpc : pc ∈ (runScript seed sizes labels (freshWorld fsys dirs)).log)
    (v : Nat) (hv : v ∈ decodeInt32LE pc.2) : v ≤ 9 := by
  rw [runScript_spec] at hpc
  obtain ⟨sl, hsl, off, rfl⟩ := mem_planItems hpc
  rw [decodeInt32LE_serialize _
    (fun u hu => lt_trans (mem_matrixDraws_lt hu) (by norm_num))] at hv
  have := mem_matrixDraws_lt hv
  omega

/-- Witness for C2: the first value of the first file of a seed-42 run over
sizes `[2]` is a concrete member of the decoded contents and is at most 9. -/
theorem C2_range_witness :
    (("matrices/A_2.bin", serialize (matrixDraws 42 0 4)) ∈
      (runScript 42 [2] ["A", "B"] (freshWorld (fun _ => none) (fun _ => false))).log) ∧
    (8 ∈ decodeInt32LE ("matrices/A_2.bin", serialize (matrixDraws 42 0 4)).2) ∧
    8 ≤ 9 :=
  ⟨by decide, by decide,
    C2_range 42 [2] ["A", "B"] (fun _ => none) (fun _ => false)
      ("matrices/A_2.bin", serialize (matrixDraws 42 0 4)) (by decide) 8 (by decide)⟩

/-- C3: every written file is, for some configured size and label, the file
`filepath label size` whose contents are exactly the `size*size` drawn
integers serialized as 32-bit little-endian values in row-major order with
nothing else — in particular its byte length is exactly `size*size*4` and
decoding returns exactly the drawn integers. -/
theorem C3_format (seed : Nat) (sizes : List Nat) (labels : List String)
    (fsys : String → Option (List Nat)) (dirs : String → Bool)
    (pc : String × List Nat)
    (hpc : pc ∈ (runScript seed sizes labels (freshWorld fsys dirs)).log) :
    ∃ size ∈ sizes, ∃ label ∈ labels, ∃ off,
      pc.1 = filepath label size ∧
      pc.2 = serialize (matrixDraws seed off (size * size)) ∧
      pc.2.length = size * size * 4 ∧
      decodeInt32LE pc.2 = matrixDraws seed off (size * size) := by
  rw [runScript_spec] at hpc
  obtain ⟨⟨s, l⟩, hsl, off, rfl⟩ := mem_planItems hpc
  obtain ⟨hs, hl⟩ := mem_items hsl
  refine ⟨s, hs, l, hl, off, rfl, rfl, ?_, ?_⟩
  · rw [serialize_length, matrixDraws_length]; ring
  · exact decodeInt32LE_serialize _
      (fun u hu => lt_trans (mem_matrixDraws_lt hu) (by norm_num))

/-- Witness for C3 at the first file of a seed-42, sizes `[2]` run. -/
theorem C3_format_witness :
    (("matrices/A_2.bin", serialize (matrixDraws 42 0 4)) ∈
      (runScript 42 [2] ["A", "B"] (freshWorld (fun _ => none) (fun _ => false))).log) ∧
    (∃ size ∈ [2], ∃ label ∈ ["A", "B"], ∃ off,
      ("matrices/A_2.bin", serialize (matrixDraws 42 0 4)).1 = filepath label size ∧
      ("matrices/A_2.bin", serialize (matrixDraws 42 0 4)).2 =
        serialize (matrixDraws 42 off (size * size)) ∧
      ("matrices/A_2.bin", serialize (matrixDraws 42 0 4)).2.length = size * size * 4 ∧
      decodeInt32LE ("matrices/A_2.bin", serialize (matrixDraws 42 0 4)).2 =
        matrixDraws 42 off (size * size)) :=
  ⟨by decide,
    C3_format 42 [2] ["A", "B"] (fun _ => none) (fun _ => false)
      ("matrices/A_2.bin", serialize (matrixDraws 42 0 4)) (by decide)⟩

/-- C4: the run prints exactly one console line `Saved <filepath>` per file
written, in the order the files are written, and the written paths are
exactly the sizes in configured order (outer) paired with the labels in
fixed order (inner). -/
theorem C4_order (seed : Nat) (sizes : List Nat) (labels : List String)
    (fsys : String → Option (List Nat)) (dirs : String → Bool) :
    (runScript seed sizes labels (freshWorld fsys dirs)).console =
      (runScript seed sizes labels (freshWorld fsys dirs)).log.map
        (fun pc => "Saved " ++ pc.1) ∧
    (runScript seed sizes labels (freshWorld fsys dirs)).log.map Prod.fst =
      sizes.flatMap (fun s => labels.map (fun l => filepath l s)) := by
  rw [runScript_spec]
  refine ⟨rfl, ?_⟩
  show (planItems seed 0 (items sizes labels)).map Prod.fst = _
  rw [planItems_map_fst]
  simp [items, List.map_flatMap, List.map_map, Function.comp_def]

/-- C5: with the compiled-in configuration, a complete run writes exactly
ten files, `A_<size>.bin` and `B_<size>.bin` for each of the five sizes in
order, all inside the `matrices` directory. -/
theorem C5_reference_output (fsys : String → Option (List Nat)) (dirs : String → Bool) :
    (script fsys dirs).log.map Prod.fst =
      ["matrices/A_64.bin", "matrices/B_64.bin",
       "matrices/A_128.bin", "matrices/B_128.bin",
       "matrices/A_256.bin", "matrices/B_256.bin",
       "matrices/A_512.bin", "matrices/B_512.bin",
       "matrices/A_1024.bin", "matrices/B_1024.bin"] ∧
    (script fsys dirs).log.length = 10 := by
  rw [script, runScript_spec]
  constructor
  · show (planItems SEED 0 (items MATRIX_SIZES LABELS)).map Prod.fst = _
    rw [planItems_map_fst]
    decide
  · show (planItems SEED 0 (items MATRIX_SIZES LABELS)).length = 10
    rw [planItems_length]
    decide

/-- C6: every filesystem error aborts the whole run at once — modelling the
uncaught exception and the non-zero process exit — with no recovery, retry
or rollback. If creating the missing output directory fails, the run aborts
immediately with that error and the world entirely unchanged: no file is
written and nothing is printed. If directory creation succeeds but the
write of the `k`-th file fails (all earlier writes succeeding), the run
aborts with that error: the log and console contain exactly the earlier `k`
files, the filesystem holds exactly the writes of those earlier iterations,
and every path outside them is untouched. These two cases (directory
creation and file writes) are the only failure modes of the model. -/
theorem C6_error_abort (env : Env) (seed : Nat) (sizes : List Nat)
    (labels : List String) (fsys : String → Option (List Nat)) (dirs : String → Bool)
    (k : Nat) :
    (dirs OUTPUT_DIR = false → env.mkdirOk = false →
      runScriptE env seed sizes labels (freshWorld fsys dirs) =
        .error (.mkdirFailed OUTPUT_DIR, freshWorld fsys dirs)) ∧
    (env.mkdirOk = true → k < (items sizes labels).length →
      (((planItems seed 0 (items sizes labels)).take k).map Prod.fst).all
        env.writeOk = true →
      env.writeOk (((planItems seed 0 (items sizes labels)).getD k ("", [])).1) =
        false →
    ∃ w',
      runScriptE env seed sizes labels (freshWorld fsys dirs) =
        .error (.writeFailed (((planItems seed 0 (items sizes labels)).getD k ("", [])).1),
          w') ∧
      w'.log = (planItems seed 0 (items sizes labels)).take k ∧
      w'.console = ((planItems seed 0 (items sizes labels)).take k).map
        (fun pc => "Saved " ++ pc.1) ∧
      w'.fs = applyWrites fsys ((planItems seed 0 (items sizes labels)).take k) ∧
      (∀ p, p ∉ ((planItems seed 0 (items sizes labels)).take k).map Prod.fst →
        w'.fs p = fsys p)) := by
  constructor
  · intro h1 h2
    rw [runScriptE, makedirsE]
    rw [show ((freshWorld fsys dirs).dirs OUTPUT_DIR || env.mkdirOk) = false by
      simp [freshWorld, h1, h2]]
    rfl
  intro hmk hk hpre hfail
  have hrun := runItemsE_failAt env seed (items sizes labels) k
    (makedirsF (freshWorld fsys dirs)) hk hpre hfail
  have hrun' : runItemsE env seed (items sizes labels) (makedirsF (freshWorld fsys dirs)) =
      .error (.writeFailed (((planItems seed 0 (items sizes labels)).getD k ("", [])).1),
        { dirs := fun d => if d = OUTPUT_DIR then true else dirs d,
          fs := applyWrites fsys ((planItems seed 0 (items sizes labels)).take k),
          log := (planItems seed 0 (items sizes labels)).take k,
          console := ((planItems seed 0 (items sizes labels)).take k).map
            (fun pc => "Saved " ++ pc.1),
          draws := drawCount ((items sizes labels).take (k + 1)) }) := by
    rw [hrun]
    simp [makedirsF, freshWorld, Except.error.injEq, Prod.mk.injEq, World.mk.injEq]
  refine ⟨{ dirs := fun d => if d = OUTPUT_DIR then true else dirs d,
            fs := applyWrites fsys ((planItems seed 0 (items sizes labels)).take k),
            log := (planItems seed 0 (items sizes labels)).take k,
            console := ((planItems seed 0 (items sizes labels)).take k).map
              (fun pc => "Saved " ++ pc.1),
            draws := drawCount ((items sizes labels).take (k + 1)) }, ?_, rfl, rfl, rfl, ?_⟩
  · show runScriptE env seed sizes labels (freshWorld fsys dirs) = _
    rw [runScriptE, makedirsE, hmk, Bool.or_true, if_pos rfl]
    exact (runSizesE_eq_runItemsE env seed sizes labels _).trans hrun'
  · intro p hp
    show applyWrites fsys ((planItems seed 0 (items sizes labels)).take k) p = fsys p
    rw [applyWrites_lastWrite, lastWrite_eq_none_of_not_mem hp]

/-- Witness for C6, covering both failure modes concretely. First: the
output directory is absent and cannot be created — the run aborts with the
mkdir error and the world unchanged. Second: sizes `[2]`, environment in
which only `matrices/B_2.bin` cannot be written — the run aborts on the
second file, leaving exactly the first file written. -/
theorem C6_error_abort_witness :
    ((fun _ => false : String → Bool) OUTPUT_DIR = false ∧
     (Env.mk false (fun _ => true)).mkdirOk = false ∧
     runScriptE (Env.mk false (fun _ => true)) 42 [2] ["A", "B"]
        (freshWorld (fun _ => none) (fun _ => false)) =
       .error (.mkdirFailed OUTPUT_DIR, freshWorld (fun _ => none) (fun _ => false))) ∧
    ((Env.mk true (fun p => !(p == "matrices/B_2.bin"))).mkdirOk = true ∧
     1 < (items [2] ["A", "B"]).length ∧
     (((planItems 42 0 (items [2] ["A", "B"])).take 1).map Prod.fst).all
       (Env.mk true (fun p => !(p == "matrices/B_2.bin"))).writeOk = true ∧
     (Env.mk true (fun p => !(p == "matrices/B_2.bin"))).writeOk
       (((planItems 42 0 (items [2] ["A", "B"])).getD 1 ("", [])).1) = false ∧
     (∃ w',
      runScriptE (Env.mk true (fun p => !(p == "matrices/B_2.bin"))) 42 [2] ["A", "B"]
          (freshWorld (fun _ => none) (fun _ => false)) =
        .error
          (.writeFailed (((planItems 42 0 (items [2] ["A", "B"])).getD 1 ("", [])).1), w') ∧
      w'.log = (planItems 42 0 (items [2] ["A", "B"])).take 1 ∧
      w'.console = ((planItems 42 0 (items [2] ["A", "B"])).take 1).map
        (fun pc => "Saved " ++ pc.1) ∧
      w'.fs = applyWrites (fun _ => none) ((planItems 42 0 (items [2] ["A", "B"])).take 1) ∧
      (∀ p, p ∉ ((planItems 42 0 (items [2] ["A", "B"])).take 1).map Prod.fst →
        w'.fs p = (fun _ => none : String → Option (List Nat)) p))) :=
  ⟨⟨rfl, rfl,
    (C6_error_abort (Env.mk false (fun _ => true)) 42 [2] ["A", "B"] (fun _ => none)
        (fun _ => false) 0).1 rfl rfl⟩,
   ⟨rfl, by decide, by decide, by decide,
    (C6_error_abort (Env.mk true (fun p => !(p == "matrices/B_2.bin"))) 42 [2] ["A", "B"]
        (fun _ => none) (fun _ => false) 1).2 rfl (by decide) (by decide) (by decide)⟩⟩

/-- C7: `makedirs` with `exist_ok` succeeds and changes no directory when
the output directory already exists; when it is absent and the filesystem
permits, it is created before any file write; and a file write replaces any
existing contents at the target path with exactly the new bytes (silent
overwrite, no error, no append), leaving every other path unchanged. -/
theorem C7_mkdir_and_overwrite (env : Env) (w : World) (h : w.dirs OUTPUT_DIR = true) :
    (makedirsE env w = .ok (makedirsF w) ∧ (makedirsF w).dirs = w.dirs) ∧
    (∀ w₀ : World, env.mkdirOk = true →
      makedirsE env w₀ = .ok (makedirsF w₀) ∧ (makedirsF w₀).dirs OUTPUT_DIR = true) ∧
    (∀ (fsys : String → Option (List Nat)) (p : String) (c : List Nat),
      writeFileF fsys p c p = some c) ∧
    (∀ (fsys : String → Option (List Nat)) (p q : String) (c : List Nat),
      q ≠ p → writeFileF fsys p c q = fsys q) := by
  refine ⟨⟨?_, ?_⟩, ?_, ?_, ?_⟩
  · rw [makedirsE, h, Bool.true_or, if_pos rfl]
  · funext d
    by_cases hd : d = OUTPUT_DIR
    · subst hd; simp [makedirsF, h]
    · simp [makedirsF, hd]
  · intro w₀ hmk
    refine ⟨?_, by simp [makedirsF]⟩
    rw [makedirsE, hmk, Bool.or_true, if_pos rfl]
  · intro fsys p c
    simp [writeFileF]
  · intro fsys p q c hq
    simp [writeFileF, hq]

/-- Witness for C7 at a world where the output directory already exists. -/
theorem C7_mkdir_and_overwrite_witness :
    (World.mk (fun d => d == "matrices") (fun _ => none) [] [] 0).dirs OUTPUT_DIR = true ∧
    (makedirsE (Env.mk true (fun _ => true))
          (World.mk (fun d => d == "matrices") (fun _ => none) [] [] 0) =
        .ok (makedirsF (World.mk (fun d => d == "matrices") (fun _ => none) [] [] 0)) ∧
      (makedirsF (World.mk (fun d => d == "matrices") (fun _ => none) [] [] 0)).dirs =
        (World.mk (fun d => d == "matrices") (fun _ => none) [] [] 0).dirs) ∧
    (∀ w₀ : World, (Env.mk true (fun _ => true)).mkdirOk = true →
      makedirsE (Env.mk true (fun _ => true)) w₀ = .ok (makedirsF w₀) ∧
      (makedirsF w₀).dirs OUTPUT_DIR = true) ∧
    (∀ (fsys : String → Option (List Nat)) (p : String) (c : List Nat),
      writeFileF fsys p c p = some c) ∧
    (∀ (fsys : String → Option (List Nat)) (p q : String) (c : List Nat),
      q ≠ p → writeFileF fsys p c q = fsys q) :=
  ⟨by decide,
    C7_mkdir_and_overwrite (Env.mk true (fun _ => true))
      (World.mk (fun d => d == "matrices") (fun _ => none) [] [] 0) (by decide)⟩

/-- C8: running the script twice in succession with the identical
compiled-in configuration is idempotent on the artifacts: the filesystem
after the second run is exactly the filesystem after the first, and the
second run performs the identical write sequence. -/
theorem C8_idempotent (fsys : String → Option (List Nat)) (dirs : String → Bool) :
    (script (script fsys dirs).fs (script fsys dirs).dirs).fs = (script fsys dirs).fs ∧
    (script (script fsys dirs).fs (script fsys dirs).dirs).log = (script fsys dirs).log := by
  simp only [script, runScript_spec]
  exact ⟨applyWrites_idem fsys _, trivial⟩

/-- C9: the output is sensitive to the configuration. For any seed whose
modelled stream differs from the reference seed's at the very first draw,
the contents of the first written file differ between the two full runs;
and swapping the first two sizes changes the contents of the `A`-labelled
file of size `b` (written third in one order, first in the other) whenever
some draw it would contain differs across the two stream offsets. -/
theorem C9_sensitivity (seed' a b j : Nat) (rest : List Nat)
    (fsys : String → Option (List Nat)) (dirs : String → Bool)
    (h1 : rngDraw seed' 0 ≠ rngDraw SEED 0)
    (hj : j < b * b)
    (h2 : rngDraw SEED (a * a + a * a + j) ≠ rngDraw SEED j) :
    ((runScript seed' MATRIX_SIZES LABELS (freshWorld fsys dirs)).log[0]?).map Prod.snd ≠
      ((runScript SEED MATRIX_SIZES LABELS (freshWorld fsys dirs)).log[0]?).map Prod.snd ∧
    ((runScript SEED (a :: b :: rest) LABELS (freshWorld fsys dirs)).log[2]?).map Prod.snd ≠
      ((runScript SEED (b :: a :: rest) LABELS (freshWorld fsys dirs)).log[0]?).map
        Prod.snd := by
  constructor
  · simp only [runScript_spec, planItems_getElem?, Option.map_map]
    rw [show (items MATRIX_SIZES LABELS)[0]? = some (64, "A") from rfl]
    simp only [Option.map_some', Function.comp_apply]
    intro heq
    rw [Option.some.injEq] at heq
    exact serialize_matrixDraws_ne (n := 64 * 64) (j := 0) (by norm_num)
      (by simpa [drawCount] using h1) heq
  · simp only [runScript_spec, planItems_getElem?, Option.map_map]
    rw [show (items (a :: b :: rest) LABELS)[2]? = some (b, "A") from rfl,
      show (items (b :: a :: rest) LABELS)[0]? = some (b, "A") from rfl]
    simp only [Option.map_some', Function.comp_apply]
    intro heq
    rw [Option.some.injEq] at heq
    refine serialize_matrixDraws_ne (n := b * b) (j := j) hj ?_ heq
    have hd1 : drawCount (List.take 2 (items (a :: b :: rest) LABELS)) =
        a * a + (a * a + 0) := rfl
    have hd2 : drawCount (List.take 0 (items (b :: a :: rest) LABELS)) = 0 := rfl
    rw [hd1, hd2]
    simpa using h2

/-- Witness for C9: seed 43 versus the reference seed 42 over the reference
sizes, and the swap of the first two reference sizes (64 and 128), both
change concrete output bytes; the differing draws are checked at indices 0
and 8193 of the modelled stream. -/
theorem C9_sensitivity_witness :
    (rngDraw 43 0 ≠ rngDraw SEED 0) ∧ (1 < 128 * 128) ∧
    (rngDraw SEED (64 * 64 + 64 * 64 + 1) ≠ rngDraw SEED 1) ∧
    (((runScript 43 MATRIX_SIZES LABELS
          (freshWorld (fun _ => none) (fun _ => false))).log[0]?).map Prod.snd ≠
      ((runScript SEED MATRIX_SIZES LABELS
          (freshWorld (fun _ => none) (fun _ => false))).log[0]?).map Prod.snd ∧
    ((runScript SEED (64 :: 128 :: [256, 512, 1024]) LABELS
          (freshWorld (fun _ => none) (fun _ => false))).log[2]?).map Prod.snd ≠
      ((runScript SEED (128 :: 64 :: [256, 512, 1024]) LABELS
          (freshWorld (fun _ => none) (fun _ => false))).log[0]?).map Prod.snd) :=
  ⟨by decide, by decide, by decide,
    C9_sensitivity 43 64 128 1 [256, 512, 1024] (fun _ => none) (fun _ => false)
      (by decide) (by decide) (by decide)⟩

/-- C10: the label list influences only the filenames, never the bytes:
over any two label lists of equal length the run writes the identical
sequence of byte strings; and the contents of the `k`-th file written are a
function of the seed and the sizes of the `k` preceding matrices only (each
matrix consuming exactly `size*size` draws of the shared stream). -/
theorem C10_labels_irrelevant (seed : Nat) (sizes : List Nat)
    (labels₁ labels₂ : List String) (fsys : String → Option (List Nat))
    (dirs : String → Bool) (h : labels₁.length = labels₂.length) :
    ((runScript seed sizes labels₁ (freshWorld fsys dirs)).log.map Prod.snd =
      (runScript seed sizes labels₂ (freshWorld fsys dirs)).log.map Prod.snd) ∧
    ∀ k, ((runScript seed sizes labels₁ (freshWorld fsys dirs)).log[k]?).map Prod.snd =
      ((items sizes labels₁)[k]?).map (fun sl =>
        serialize (matrixDraws seed (drawCount ((items sizes labels₁).take k))
          (sl.1 * sl.1))) := by
  constructor
  · simp only [runScript_spec]
    exact planItems_map_snd_congr (items_map_fst_congr h)
  · intro k
    simp only [runScript_spec, planItems_getElem?, Option.map_map]
    refine Option.map_congr fun sl _ => ?_
    simp [Nat.zero_add]

/-- Witness for C10: relabelling `["A", "B"]` to `["X", "Y"]` over sizes
`[2]` leaves the written byte sequence unchanged. -/
theorem C10_labels_irrelevant_witness :
    (["A", "B"] : List String).length = (["X", "Y"] : List String).length ∧
    ((runScript 42 [2] ["A", "B"] (freshWorld (fun _ => none) (fun _ => false))).log.map
        Prod.snd =
      (runScript 42 [2] ["X", "Y"] (freshWorld (fun _ => none) (fun _ => false))).log.map
        Prod.snd) :=
  ⟨by decide,
    (C10_labels_irrelevant 42 [2] ["A", "B"] ["X", "Y"] (fun _ => none) (fun _ => false)
      (by decide)).1⟩
